import Mathlib

/-!
Verification of the path-resolution utility of
`joeldalley/typescript-redux-observable` (`src/getOrElse.ts`, plus the
variant with typed coercion helpers).

The JavaScript values the resolver manipulates are modelled by the
inductive type `JSVal`; `getOrElse`, `multiPathsGetOrElse`, the default
export and `getDefinedOrElse` are translated function by function.
-/

namespace GetOrElse

/-- A JavaScript runtime value, as far as the resolver observes it:
`null`, `undefined`, booleans, numbers, strings, plain objects (a list of
string-keyed fields), and wrapper objects produced by the `Object(.)`
coercion on a primitive. -/
inductive JSVal : Type where
  | vnull : JSVal
  | vundefined : JSVal
  | vbool : Bool → JSVal
  | vnum : Int → JSVal
  | vstr : String → JSVal
  | vobj : List (String × JSVal) → JSVal
  | vboxed : JSVal → JSVal
deriving Repr

mutual

/-- Decidable equality on `JSVal` (the derive handler does not support the
nesting through `List`). -/
def decEqVal : (a b : JSVal) → Decidable (a = b)
  | .vnull, .vnull => isTrue rfl
  | .vundefined, .vundefined => isTrue rfl
  | .vbool a, .vbool b =>
      match decEq a b with
      | isTrue h => isTrue (by rw [h])
      | isFalse h => isFalse (fun hh => h (JSVal.vbool.inj hh))
  | .vnum a, .vnum b =>
      match decEq a b with
      | isTrue h => isTrue (by rw [h])
      | isFalse h => isFalse (fun hh => h (JSVal.vnum.inj hh))
  | .vstr a, .vstr b =>
      match decEq a b with
      | isTrue h => isTrue (by rw [h])
      | isFalse h => isFalse (fun hh => h (JSVal.vstr.inj hh))
  | .vobj fs, .vobj gs =>
      match decEqFields fs gs with
      | isTrue h => isTrue (by rw [h])
      | isFalse h => isFalse (fun hh => h (JSVal.vobj.inj hh))
  | .vboxed a, .vboxed b =>
      match decEqVal a b with
      | isTrue h => isTrue (by rw [h])
      | isFalse h => isFalse (fun hh => h (JSVal.vboxed.inj hh))
  | .vnull, .vundefined | .vnull, .vbool _ | .vnull, .vnum _ | .vnull, .vstr _
  | .vnull, .vobj _ | .vnull, .vboxed _
  | .vundefined, .vnull | .vundefined, .vbool _ | .vundefined, .vnum _
  | .vundefined, .vstr _ | .vundefined, .vobj _ | .vundefined, .vboxed _
  | .vbool _, .vnull | .vbool _, .vundefined | .vbool _, .vnum _ | .vbool _, .vstr _
  | .vbool _, .vobj _ | .vbool _, .vboxed _
  | .vnum _, .vnull | .vnum _, .vundefined | .vnum _, .vbool _ | .vnum _, .vstr _
  | .vnum _, .vobj _ | .vnum _, .vboxed _
  | .vstr _, .vnull | .vstr _, .vundefined | .vstr _, .vbool _ | .vstr _, .vnum _
  | .vstr _, .vobj _ | .vstr _, .vboxed _
  | .vobj _, .vnull | .vobj _, .vundefined | .vobj _, .vbool _ | .vobj _, .vnum _
  | .vobj _, .vstr _ | .vobj _, .vboxed _
  | .vboxed _, .vnull | .vboxed _, .vundefined | .vboxed _, .vbool _
  | .vboxed _, .vnum _ | .vboxed _, .vstr _ | .vboxed _, .vobj _ =>
      isFalse (fun hh => JSVal.noConfusion hh)

/-- Decidable equality on object field lists. -/
def decEqFields : (fs gs : List (String × JSVal)) → Decidable (fs = gs)
  | [], [] => isTrue rfl
  | [], _ :: _ => isFalse (fun hh => List.noConfusion hh)
  | _ :: _, [] => isFalse (fun hh => List.noConfusion hh)
  | (k, v) :: fs, (l, w) :: gs =>
      match decEq k l, decEqVal v w, decEqFields fs gs with
      | isTrue h1, isTrue h2, isTrue h3 => isTrue (by rw [h1, h2, h3])
      | isFalse h1, _, _ =>
          isFalse (fun hh => h1 (congrArg (fun p => (p.headD ("", JSVal.vnull)).1) hh))
      | _, isFalse h2, _ =>
          isFalse (fun hh => h2 (congrArg (fun p => (p.headD ("", JSVal.vnull)).2) hh))
      | _, _, isFalse h3 =>
          isFalse (fun hh => h3 (congrArg List.tail hh))

end

instance : DecidableEq JSVal := decEqVal

/-- `ptr !== null && typeof ptr === 'object'`: true exactly on the
structured (key-indexable) values. `typeof null` is `'object'` in JS but
the null check excludes it; wrapper objects are objects. -/
def isObject : JSVal → Bool
  | .vobj _ => true
  | .vboxed _ => true
  | _ => false

/-- `field in root`: structural key membership on an object. -/
def hasKey (v : JSVal) (field : String) : Bool :=
  match v with
  | .vobj fields => fields.any (fun kv => kv.1 == field)
  | _ => false

/-- `root[field]`: member access; an absent key reads as `undefined`. -/
def jsIndex (v : JSVal) (field : String) : JSVal :=
  match v with
  | .vobj fields =>
      match fields.find? (fun kv => kv.1 == field) with
      | some kv => kv.2
      | none => .vundefined
  | _ => .vundefined

/-- `isValid` from `src/getOrElse.ts`:
`requireDefined ? root[field] !== undefined : field in root`. -/
def isValid (root : JSVal) (field : String) (requireDefined : Bool) : Bool :=
  if requireDefined then !(jsIndex root field == .vundefined) else hasKey root field

/-- One step of the `reduce` callback in `getOrElse`:
`const ptr = idx === 0 ? root : acc;`
`const isObject = ptr !== null && typeof ptr === 'object';`
`return isObject && isValid(ptr, curr, requireDefined) ? ptr[curr] : orElse`. -/
def stepSeg (root orElse : JSVal) (requireDefined : Bool)
    (acc : JSVal) (curr : String) (idx : Nat) : JSVal :=
  let ptr := if idx == 0 then root else acc
  if isObject ptr && isValid ptr curr requireDefined then jsIndex ptr curr else orElse

/-- The `reduce` over the split segments, with the running index made
explicit. -/
def reduceSegs (root orElse : JSVal) (requireDefined : Bool) :
    List String → JSVal → Nat → JSVal
  | [], acc, _ => acc
  | curr :: rest, acc, idx =>
      reduceSegs root orElse requireDefined rest
        (stepSeg root orElse requireDefined acc curr idx) (idx + 1)

/-- `String.prototype.split('.')` on a character list: splitting the empty
text yields one empty segment, and every `'.'` starts a new segment
(leading, trailing and consecutive dots give empty segments). -/
def splitDotChars : List Char → List String
  | [] => [""]
  | c :: rest =>
      let tail := splitDotChars rest
      if c == '.' then "" :: tail
      else
        match tail with
        | [] => [String.mk [c]]
        | s :: ss => String.mk (c :: s.data) :: ss

/-- `dotPath.split('.')`. -/
def splitDot (s : String) : List String := splitDotChars s.data

/-- `getOrElse` from `src/getOrElse.ts`: the empty-path special case,
then `dotPath.split('.').reduce(..., orElse)`. -/
def getOrElse (root : JSVal) (dotPath : String) (orElse : JSVal)
    (requireDefined : Bool := false) : JSVal :=
  if isObject root && dotPath == "" then root
  else reduceSegs root orElse requireDefined (splitDot dotPath) orElse 0

/-- `multiPathsGetOrElse` from `src/getOrElse.ts`: map each candidate path
through definedness resolution with the `undefined` sentinel as default,
take the first result that is not `undefined`, else the caller's default. -/
def multiPathsGetOrElse (root : JSVal) (dotPaths : List String) (orElse : JSVal) : JSVal :=
  let found := (dotPaths.map (fun p => getOrElse root p .vundefined true)).find?
    (fun v => !(v == .vundefined))
  match found with
  | some v => v
  | none => orElse

/-- A path argument of the public entry points: a single dot-path string
or an array of them. -/
abbrev PathArg : Type := String ⊕ List String

/-- The default export: dispatch on the shape of the path argument;
single paths resolve under the existence policy. -/
def defaultExport (root : JSVal) (dotPath : PathArg)
    (orElse : JSVal := .vundefined) : JSVal :=
  match dotPath with
  | .inr paths => multiPathsGetOrElse root paths orElse
  | .inl p => getOrElse root p orElse false

/-- `getDefinedOrElse`: same dispatch, single paths resolve under the
definedness policy. -/
def getDefinedOrElse (root : JSVal) (dotPath : PathArg)
    (orElse : JSVal := .vundefined) : JSVal :=
  match dotPath with
  | .inr paths => multiPathsGetOrElse root paths orElse
  | .inl p => getOrElse root p orElse true

/-- JS `Object(x)` coercion: objects pass through, `null` and `undefined`
give a fresh empty object, and any primitive is boxed into a wrapper
object. -/
def jsObject : JSVal → JSVal
  | .vobj fields => .vobj fields
  | .vboxed v => .vboxed v
  | .vnull => .vobj []
  | .vundefined => .vobj []
  | v => .vboxed v

/-- Whether a value is a primitive string. -/
def isString : JSVal → Bool
  | .vstr _ => true
  | _ => false

/-- `getStringOr` from the helper variant of `getOrElse.ts`: declared with
return type `string`, but implemented as
`Object(getDefinedOrElse(root, dotPath, orElse))`. -/
def getStringOr (root : JSVal) (dotPath : PathArg)
    (orElse : JSVal := .vundefined) : JSVal :=
  jsObject (getDefinedOrElse root dotPath orElse)

/-- Spec-side reading of multi-path resolution: the definedness-resolved
value of the first candidate path that does not resolve to the absent
sentinel, else the caller's default. -/
def firstDefinedSpec (root : JSVal) : List String → JSVal → JSVal
  | [], orElse => orElse
  | p :: rest, orElse =>
      let v := getOrElse root p .vundefined true
      if v == .vundefined then firstDefinedSpec root rest orElse else v

/-- Member access as the JS runtime evaluates it: reading a property of
`null` or `undefined` throws a `TypeError`; every other base yields the
property value (absent keys and primitives read as `undefined`). -/
def jsIndexE (v : JSVal) (field : String) : Except String JSVal :=
  match v with
  | .vnull => .error "TypeError: cannot read properties of null"
  | .vundefined => .error "TypeError: cannot read properties of undefined"
  | v => .ok (jsIndex v field)

/-- The `in` operator as the JS runtime evaluates it: throws a `TypeError`
unless the right operand is an object. -/
def hasKeyE (v : JSVal) (field : String) : Except String Bool :=
  match v with
  | .vobj _ => .ok (hasKey v field)
  | .vboxed _ => .ok (hasKey v field)
  | _ => .error "TypeError: cannot use the in operator"

/-- `isValid` with the runtime's throwing member access and `in` operator. -/
def isValidE (root : JSVal) (field : String) (requireDefined : Bool) :
    Except String Bool :=
  if requireDefined then
    match jsIndexE root field with
    | .ok v => .ok (!(v == .vundefined))
    | .error e => .error e
  else hasKeyE root field

/-- One reduce step with the runtime's throwing operations; `isValid` and
`ptr[curr]` are only reached behind the `isObject` guard, exactly as in
the source. -/
def stepSegE (root orElse : JSVal) (requireDefined : Bool)
    (acc : JSVal) (curr : String) (idx : Nat) : Except String JSVal :=
  let ptr := if idx == 0 then root else acc
  if isObject ptr then
    match isValidE ptr curr requireDefined with
    | .error e => .error e
    | .ok ok => if ok then jsIndexE ptr curr else .ok orElse
  else .ok orElse

/-- The reduce over the segments with the runtime's throwing operations. -/
def reduceSegsE (root orElse : JSVal) (requireDefined : Bool) :
    List String → JSVal → Nat → Except String JSVal
  | [], acc, _ => .ok acc
  | curr :: rest, acc, idx =>
      match stepSegE root orElse requireDefined acc curr idx with
      | .error e => .error e
      | .ok acc2 => reduceSegsE root orElse requireDefined rest acc2 (idx + 1)

/-- `getOrElse` with the runtime's throwing operations made explicit. -/
def getOrElseE (root : JSVal) (dotPath : String) (orElse : JSVal)
    (requireDefined : Bool := false) : Except String JSVal :=
  if isObject root && dotPath == "" then .ok root
  else reduceSegsE root orElse requireDefined (splitDot dotPath) orElse 0

/-- The reduce observed together with the root value after the call: the
source never assigns into `root`, so each step threads it through
unchanged. -/
def reduceSegsTrace (root orElse : JSVal) (requireDefined : Bool) :
    List String → JSVal → Nat → JSVal × JSVal
  | [], acc, _ => (acc, root)
  | curr :: rest, acc, idx =>
      reduceSegsTrace root orElse requireDefined rest
        (stepSeg root orElse requireDefined acc curr idx) (idx + 1)

/-- `getOrElse` paired with the root value observable after the call. -/
def getOrElseTrace (root : JSVal) (dotPath : String) (orElse : JSVal)
    (requireDefined : Bool := false) : JSVal × JSVal :=
  if isObject root && dotPath == "" then (root, root)
  else reduceSegsTrace root orElse requireDefined (splitDot dotPath) orElse 0

/-- At index `0` the reduce step reads the root. -/
theorem stepSeg_zero (root orElse : JSVal) (rd : Bool) (acc : JSVal) (c : String) :
    stepSeg root orElse rd acc c 0 =
      if isObject root && isValid root c rd then jsIndex root c else orElse := rfl

/-- At every later index the reduce step reads the accumulator. -/
theorem stepSeg_succ (root orElse : JSVal) (rd : Bool) (acc : JSVal) (c : String) (idx : Nat) :
    stepSeg root orElse rd acc c (idx + 1) =
      if isObject acc && isValid acc c rd then jsIndex acc c else orElse := rfl

/-- A non-structured default can never satisfy the object guard at a
non-initial index, so once it is the accumulator the reduce keeps
returning it. -/
theorem reduceSegs_of_nonobj (root orElse : JSVal) (rd : Bool) :
    ∀ (rest : List String) (idx : Nat), isObject orElse = false →
      reduceSegs root orElse rd rest orElse (idx + 1) = orElse := by
  intro rest
  induction rest with
  | nil => intro idx h; rfl
  | cons c cs ih =>
      intro idx h
      rw [reduceSegs, stepSeg_succ, h]
      simp only [Bool.false_and, if_neg]
      exact ih (idx + 1) h

/-- If member access yields something other than `undefined`, the key is
structurally present. -/
theorem hasKey_of_jsIndex_ne (v : JSVal) (f : String)
    (h : jsIndex v f ≠ JSVal.vundefined) : hasKey v f = true := by
  cases v with
  | vobj fields =>
      rw [jsIndex] at h
      cases hf : fields.find? (fun kv => kv.1 == f) with
      | none => rw [hf] at h; exact absurd rfl h
      | some kv =>
          have hmem := List.mem_of_find?_eq_some hf
          have hp := List.find?_some hf
          rw [hasKey]
          exact List.any_eq_true.mpr ⟨kv, hmem, hp⟩
  | vnull => exact absurd rfl h
  | vundefined => exact absurd rfl h
  | vbool b => exact absurd rfl h
  | vnum n => exact absurd rfl h
  | vstr s => exact absurd rfl h
  | vboxed w => exact absurd rfl h

/-- Unfolding of multi-path resolution on a first candidate. -/
theorem multiPaths_cons (root : JSVal) (p : String) (rest : List String) (orElse : JSVal) :
    multiPathsGetOrElse root (p :: rest) orElse =
      if getOrElse root p JSVal.vundefined true == JSVal.vundefined
      then multiPathsGetOrElse root rest orElse
      else getOrElse root p JSVal.vundefined true := by
  cases hv : (getOrElse root p JSVal.vundefined true == JSVal.vundefined) <;>
    simp [multiPathsGetOrElse, List.find?_cons, hv]

/-- The map-then-find implementation of multi-path resolution computes the
spec-side first-defined recursion. -/
theorem multiPaths_eq_spec (root : JSVal) :
    ∀ (ps : List String) (orElse : JSVal),
      multiPathsGetOrElse root ps orElse = firstDefinedSpec root ps orElse := by
  intro ps
  induction ps with
  | nil => intro orElse; rfl
  | cons p rest ih =>
      intro orElse
      rw [multiPaths_cons, firstDefinedSpec]
      cases hv : (getOrElse root p JSVal.vundefined true == JSVal.vundefined) <;>
        simp [hv, ih]

/-- The guarded member access of the reduce step never throws and computes
the pure step value. -/
theorem guarded_access_ok (ptr orElse : JSVal) (c : String) (rd : Bool) :
    (if isObject ptr then
        match isValidE ptr c rd with
        | .error e => .error e
        | .ok ok => if ok then jsIndexE ptr c else .ok orElse
      else .ok orElse) =
      Except.ok (if isObject ptr && isValid ptr c rd then jsIndex ptr c else orElse) := by
  cases ptr <;> cases rd <;>
    simp [isObject, isValidE, isValid, hasKeyE, jsIndexE, apply_ite] <;>
    split <;> simp_all

/-- The throwing reduce step never throws. -/
theorem stepSegE_ok (root orElse : JSVal) (rd : Bool) (acc : JSVal)
    (c : String) (idx : Nat) :
    stepSegE root orElse rd acc c idx = .ok (stepSeg root orElse rd acc c idx) := by
  rw [stepSegE, stepSeg]
  exact guarded_access_ok (if idx == 0 then root else acc) orElse c rd

/-- The throwing reduce never throws. -/
theorem reduceSegsE_ok (root orElse : JSVal) (rd : Bool) :
    ∀ (segs : List String) (acc : JSVal) (idx : Nat),
      reduceSegsE root orElse rd segs acc idx =
        .ok (reduceSegs root orElse rd segs acc idx) := by
  intro segs
  induction segs with
  | nil => intro acc idx; rfl
  | cons c cs ih =>
      intro acc idx
      rw [reduceSegsE, reduceSegs, stepSegE_ok]
      exact ih _ _

/-- The traced reduce computes the pure result and leaves the root as it
was supplied. -/
theorem reduceSegsTrace_eq (root orElse : JSVal) (rd : Bool) :
    ∀ (segs : List String) (acc : JSVal) (idx : Nat),
      reduceSegsTrace root orElse rd segs acc idx =
        (reduceSegs root orElse rd segs acc idx, root) := by
  intro segs
  induction segs with
  | nil => intro acc idx; rfl
  | cons c cs ih =>
      intro acc idx
      rw [reduceSegsTrace, reduceSegs]
      exact ih _ _

/-- Claim C1, counterexample: the walk does not short-circuit once it
fails. With root `{a: null}`, path `"a.b.c"` and the structured default
`{c: 99}`, the failure at segment `"b"` writes the default into the
accumulator and segment `"c"` then resolves inside the default, so the
call returns `99` and not the default. -/
theorem claim_C1_cex :
    getOrElse (.vobj [("a", .vnull)]) "a.b.c" (.vobj [("c", .vnum 99)]) false = .vnum 99 ∧
    JSVal.vnum 99 ≠ JSVal.vobj [("c", .vnum 99)] := by decide

/-- Claim C1, amended: once the walk fails, the accumulator holds the
default, and provided the default is not itself a structured value the
result stays the default through every subsequent segment; in particular
for every root and non-structured default, `resolve(root, "a.b.c",
default, false)` returns the default whenever `root.a` is null, absent,
or non-structured. -/
theorem claim_C1 :
    (∀ (root orElse : JSVal) (rd : Bool) (rest : List String) (idx : Nat),
        isObject orElse = false →
        reduceSegs root orElse rd rest orElse (idx + 1) = orElse) ∧
    (∀ (root orElse : JSVal),
        isObject orElse = false → isObject (jsIndex root "a") = false →
        getOrElse root "a.b.c" orElse false = orElse) := by
  constructor
  · exact fun root orElse rd rest idx h => reduceSegs_of_nonobj root orElse rd rest idx h
  · intro root orElse h1 h2
    have hne : ("a.b.c" == "") = false := by decide
    have hsplit : splitDot "a.b.c" = ["a", "b", "c"] := by decide
    rw [getOrElse, hne, Bool.and_false, if_neg (by simp), hsplit]
    rw [reduceSegs, stepSeg_zero]
    have hacc : isObject (if isObject root && isValid root "a" false
        then jsIndex root "a" else orElse) = false := by
      cases hg : (isObject root && isValid root "a" false) with
      | true => simpa using h2
      | false => simpa using h1
    rw [reduceSegs, stepSeg_succ, hacc]
    simp only [Bool.false_and, Bool.false_eq_true, if_false]
    exact reduceSegs_of_nonobj root orElse false ["c"] 1 h1

/-- Claim C1, witness: the amended statement applied at `root = {a: null}`
and the number default `0`. -/
theorem claim_C1_witness :
    isObject (JSVal.vnum 0) = false ∧
    isObject (jsIndex (JSVal.vobj [("a", .vnull)]) "a") = false ∧
    reduceSegs (.vobj []) (JSVal.vnum 0) false ["x"] (JSVal.vnum 0) 1 = JSVal.vnum 0 ∧
    getOrElse (.vobj [("a", .vnull)]) "a.b.c" (JSVal.vnum 0) false = JSVal.vnum 0 := by
  refine ⟨by decide, by decide, ?_, ?_⟩
  · exact claim_C1.1 (.vobj []) (JSVal.vnum 0) false ["x"] 0 (by decide)
  · exact claim_C1.2 (.vobj [("a", .vnull)]) (JSVal.vnum 0) (by decide) (by decide)

/-- Claim C2: with the empty path, a non-null structured root is returned
unchanged; a null or non-structured root makes the walk run over the one
empty segment and fail, yielding the default. -/
theorem claim_C2 (root orElse : JSVal) (rd : Bool) :
    (isObject root = true → getOrElse root "" orElse rd = root) ∧
    (isObject root = false → getOrElse root "" orElse rd = orElse) := by
  constructor
  · intro h
    simp [getOrElse, h]
  · intro h
    have hsplit : splitDot "" = [""] := by decide
    simp [getOrElse, h, hsplit, reduceSegs, stepSeg]

/-- Claim C2, witness: the empty-path rule at `{x: 1}` and at `null`. -/
theorem claim_C2_witness :
    isObject (JSVal.vobj [("x", .vnum 1)]) = true ∧
    getOrElse (.vobj [("x", .vnum 1)]) "" (.vnum 0) false = .vobj [("x", .vnum 1)] ∧
    isObject JSVal.vnull = false ∧
    getOrElse JSVal.vnull "" (.vnum 0) true = JSVal.vnum 0 := by
  refine ⟨by decide, ?_, by decide, ?_⟩
  · exact (claim_C2 (.vobj [("x", .vnum 1)]) (.vnum 0) false).1 (by decide)
  · exact (claim_C2 JSVal.vnull (.vnum 0) true).2 (by decide)

/-- Claim C3: multi-path resolution returns the definedness-resolved value
of the first candidate that is not the absent sentinel (the spec-side
recursion `firstDefinedSpec`); swapping two candidates whose defined
resolved values disagree changes the result; and the `undefined` sentinel
is only ever returned when it is the caller's own default. -/
theorem claim_C3 :
    (∀ (root : JSVal) (ps : List String) (orElse : JSVal),
        multiPathsGetOrElse root ps orElse = firstDefinedSpec root ps orElse) ∧
    (∀ (root : JSVal) (p1 p2 : String) (orElse : JSVal),
        getOrElse root p1 JSVal.vundefined true ≠ getOrElse root p2 JSVal.vundefined true →
        getOrElse root p1 JSVal.vundefined true ≠ JSVal.vundefined →
        getOrElse root p2 JSVal.vundefined true ≠ JSVal.vundefined →
        multiPathsGetOrElse root [p1, p2] orElse ≠ multiPathsGetOrElse root [p2, p1] orElse) ∧
    (∀ (root : JSVal) (ps : List String) (orElse : JSVal),
        multiPathsGetOrElse root ps orElse = JSVal.vundefined → orElse = JSVal.vundefined) := by
  refine ⟨fun root => multiPaths_eq_spec root, ?_, ?_⟩
  · intro root p1 p2 orElse hdiff h1 h2
    have e1 : multiPathsGetOrElse root [p1, p2] orElse =
        getOrElse root p1 JSVal.vundefined true := by
      rw [multiPaths_cons, if_neg (by simpa using h1)]
    have e2 : multiPathsGetOrElse root [p2, p1] orElse =
        getOrElse root p2 JSVal.vundefined true := by
      rw [multiPaths_cons, if_neg (by simpa using h2)]
    rw [e1, e2]
    exact hdiff
  · intro root ps
    induction ps with
    | nil => intro orElse h; exact h
    | cons p rest ih =>
        intro orElse h
        rw [multiPaths_cons] at h
        cases hv : (getOrElse root p JSVal.vundefined true == JSVal.vundefined) with
        | true => rw [hv, if_pos rfl] at h; exact ih orElse h
        | false =>
            rw [hv] at h
            simp only [Bool.false_eq_true, if_false] at h
            rw [h] at hv
            simp at hv

/-- Claim C3, witness: fallback `["temp.celsius", "c"]` over `{c: 3}`, and
the order sensitivity of `["c", "d"]` against `["d", "c"]` over
`{c: 3, d: 4}`. -/
theorem claim_C3_witness :
    multiPathsGetOrElse (.vobj [("c", .vnum 3)]) ["temp.celsius", "c"] (.vnum 0) =
      firstDefinedSpec (.vobj [("c", .vnum 3)]) ["temp.celsius", "c"] (.vnum 0) ∧
    multiPathsGetOrElse (.vobj [("c", .vnum 3), ("d", .vnum 4)]) ["c", "d"] (.vnum 0) ≠
      multiPathsGetOrElse (.vobj [("c", .vnum 3), ("d", .vnum 4)]) ["d", "c"] (.vnum 0) ∧
    JSVal.vundefined = JSVal.vundefined := by
  refine ⟨?_, ?_, ?_⟩
  · exact claim_C3.1 (.vobj [("c", .vnum 3)]) ["temp.celsius", "c"] (.vnum 0)
  · exact claim_C3.2.1 (.vobj [("c", .vnum 3), ("d", .vnum 4)]) "c" "d" (.vnum 0)
      (by decide) (by decide) (by decide)
  · exact claim_C3.2.2 (.vobj []) ["c"] JSVal.vundefined (by decide)

/-- Claim C4: when a key is structurally present but holds `undefined`,
the definedness test fails while the existence test passes, so resolution
returns the default under `requireDefined = true` and the `undefined`
value itself under `requireDefined = false`; and whenever the definedness
test passes, the existence test passes too. -/
theorem claim_C4 :
    (∀ (v : JSVal) (f : String), hasKey v f = true → jsIndex v f = JSVal.vundefined →
        isValid v f true = false ∧ isValid v f false = true) ∧
    (∀ (v : JSVal) (f : String), isValid v f true = true → isValid v f false = true) ∧
    (∀ (root : JSVal) (f : String) (orElse : JSVal),
        isObject root = true → splitDot f = [f] → (f == "") = false →
        hasKey root f = true → jsIndex root f = JSVal.vundefined →
        getOrElse root f orElse true = orElse ∧
        getOrElse root f orElse false = JSVal.vundefined) := by
  refine ⟨?_, ?_, ?_⟩
  · intro v f hk hu
    constructor
    · simp [isValid, hu]
    · simp [isValid, hk]
  · intro v f h
    rw [isValid] at h
    rw [if_pos rfl] at h
    have hne : jsIndex v f ≠ JSVal.vundefined := by
      intro hu
      rw [hu] at h
      simp at h
    simp [isValid, hasKey_of_jsIndex_ne v f hne]
  · intro root f orElse hobj hsplit hne hk hu
    constructor
    · rw [getOrElse, hne, Bool.and_false, if_neg (by simp), hsplit]
      rw [reduceSegs, stepSeg_zero]
      have hval : isValid root f true = false := by
        rw [isValid, if_pos rfl, hu]
        simp
      rw [hval, Bool.and_false, if_neg (by simp), reduceSegs]
    · rw [getOrElse, hne, Bool.and_false, if_neg (by simp), hsplit]
      rw [reduceSegs, stepSeg_zero]
      have hval : isValid root f false = true := by simp [isValid, hk]
      rw [hval, hobj, Bool.and_self, if_pos rfl, reduceSegs]
      exact hu

/-- Claim C4, witness: the two policies at `{k: undefined}` with the key
`"k"` and default `3`. -/
theorem claim_C4_witness :
    hasKey (.vobj [("k", JSVal.vundefined)]) "k" = true ∧
    jsIndex (.vobj [("k", JSVal.vundefined)]) "k" = JSVal.vundefined ∧
    isValid (.vobj [("k", JSVal.vundefined)]) "k" true = false ∧
    isValid (.vobj [("k", JSVal.vundefined)]) "k" false = true ∧
    isValid (.vobj [("k", .vnum 2)]) "k" false = true ∧
    getOrElse (.vobj [("k", JSVal.vundefined)]) "k" (.vnum 3) true = .vnum 3 ∧
    getOrElse (.vobj [("k", JSVal.vundefined)]) "k" (.vnum 3) false = JSVal.vundefined := by
  refine ⟨by decide, by decide, ?_, ?_, ?_, ?_, ?_⟩
  · exact (claim_C4.1 (.vobj [("k", JSVal.vundefined)]) "k" (by decide) (by decide)).1
  · exact (claim_C4.1 (.vobj [("k", JSVal.vundefined)]) "k" (by decide) (by decide)).2
  · exact claim_C4.2.1 (.vobj [("k", .vnum 2)]) "k" (by decide)
  · exact (claim_C4.2.2 (.vobj [("k", JSVal.vundefined)]) "k" (.vnum 3)
      (by decide) (by decide) (by decide) (by decide) (by decide)).1
  · exact (claim_C4.2.2 (.vobj [("k", JSVal.vundefined)]) "k" (.vnum 3)
      (by decide) (by decide) (by decide) (by decide) (by decide)).2

/-- Claim C5: `getStringOr` is declared to return a string, but it applies
the `Object(.)` coercion rather than `String(.)` to the definedness-based
resolution result: with root `{}`, path `"a"` and default `7`, the
resolution yields `7` and `getStringOr` returns the boxed number object
`Object(7)`, which is not a string value. -/
theorem claim_C5_bug :
    getDefinedOrElse (.vobj []) (Sum.inl "a") (.vnum 7) = .vnum 7 ∧
    getStringOr (.vobj []) (Sum.inl "a") (.vnum 7) = .vboxed (.vnum 7) ∧
    isString (getStringOr (.vobj []) (Sum.inl "a") (.vnum 7)) = false := by decide

/-- Claim C6: the three concrete single-path scenarios under the existence
policy. -/
theorem claim_C6 :
    getOrElse (.vobj [("a", .vobj [("b", .vnum 5)])]) "a.b" (.vnum 0) false = .vnum 5 ∧
    getOrElse (.vobj [("a", .vobj [("b", .vnum 5)])]) "a.c" (.vnum 0) false = .vnum 0 ∧
    getOrElse (.vobj [("a", .vnull)]) "a.b" (.vnum 0) false = .vnum 0 := by decide

/-- Claim C7: with the runtime's throwing member access and `in` operator
made explicit, `getOrElse` never reaches an error: for every root, path,
default and flag it returns `.ok` of the pure result, so missing data is
always absorbed into the default-return path. -/
theorem claim_C7 (root : JSVal) (dotPath : String) (orElse : JSVal) (rd : Bool) :
    getOrElseE root dotPath orElse rd = .ok (getOrElse root dotPath orElse rd) := by
  rw [getOrElseE, getOrElse]
  cases hg : (isObject root && (dotPath == "")) with
  | true => rw [if_pos rfl, if_pos rfl]
  | false =>
      rw [if_neg (by simp), if_neg (by simp)]
      exact reduceSegsE_ok root orElse rd (splitDot dotPath) orElse 0

/-- Claim C8: resolution is deterministic — two calls with equal root,
path, default and flag give equal results, for the single-path and the
multi-path form — and the traced resolver, which threads the root value
through every step exactly as the mutation-free source does, hands the
root back unchanged. -/
theorem claim_C8 :
    (∀ (root1 root2 : JSVal) (p1 p2 : String) (orElse1 orElse2 : JSVal) (rd1 rd2 : Bool),
        root1 = root2 → p1 = p2 → orElse1 = orElse2 → rd1 = rd2 →
        getOrElse root1 p1 orElse1 rd1 = getOrElse root2 p2 orElse2 rd2) ∧
    (∀ (root : JSVal) (p : String) (orElse : JSVal) (rd : Bool),
        (getOrElseTrace root p orElse rd).2 = root ∧
        (getOrElseTrace root p orElse rd).1 = getOrElse root p orElse rd) ∧
    (∀ (root1 root2 : JSVal) (ps1 ps2 : List String) (orElse1 orElse2 : JSVal),
        root1 = root2 → ps1 = ps2 → orElse1 = orElse2 →
        multiPathsGetOrElse root1 ps1 orElse1 = multiPathsGetOrElse root2 ps2 orElse2) := by
  refine ⟨?_, ?_, ?_⟩
  · intro root1 root2 p1 p2 orElse1 orElse2 rd1 rd2 h1 h2 h3 h4
    rw [h1, h2, h3, h4]
  · intro root p orElse rd
    rw [getOrElseTrace, getOrElse]
    cases hg : (isObject root && (p == "")) with
    | true => rw [if_pos rfl, if_pos rfl]; exact ⟨rfl, rfl⟩
    | false =>
        rw [if_neg (by simp), if_neg (by simp), reduceSegsTrace_eq]
        exact ⟨rfl, rfl⟩
  · intro root1 root2 ps1 ps2 orElse1 orElse2 h1 h2 h3
    rw [h1, h2, h3]

/-- Claim C8, witness: the determinism and root-preservation statements at
`{a: 1}`. -/
theorem claim_C8_witness :
    getOrElse (.vobj [("a", .vnum 1)]) "a" (.vnum 0) false =
      getOrElse (.vobj [("a", .vnum 1)]) "a" (.vnum 0) false ∧
    (getOrElseTrace (.vobj [("a", .vnum 1)]) "a" (.vnum 0) false).2 =
      .vobj [("a", .vnum 1)] ∧
    multiPathsGetOrElse (.vobj [("a", .vnum 1)]) ["a"] (.vnum 0) =
      multiPathsGetOrElse (.vobj [("a", .vnum 1)]) ["a"] (.vnum 0) := by
  refine ⟨?_, ?_, ?_⟩
  · exact claim_C8.1 _ _ _ _ _ _ _ _ rfl rfl rfl rfl
  · exact (claim_C8.2.1 (.vobj [("a", .vnum 1)]) "a" (.vnum 0) false).1
  · exact claim_C8.2.2 _ _ _ _ _ _ rfl rfl rfl

/-- Claim C9: on array-shaped path arguments the default export and
`getDefinedOrElse` agree, both dispatching to `multiPathsGetOrElse` — so
multi-path calls through the existence-policy entry point apply the
definedness policy. -/
theorem claim_C9 (root : JSVal) (paths : List String) (orElse : JSVal) :
    defaultExport root (Sum.inr paths) orElse = getDefinedOrElse root (Sum.inr paths) orElse ∧
    defaultExport root (Sum.inr paths) orElse = multiPathsGetOrElse root paths orElse :=
  ⟨rfl, rfl⟩

/-- Claim C10: an empty candidate list makes `multiPathsGetOrElse` return
the caller's default, without error. -/
theorem claim_C10 (root orElse : JSVal) :
    multiPathsGetOrElse root [] orElse = orElse := rfl

end GetOrElse
